import Mathlib

/-!
Verification of unpaper's option-value parsing layer (lib/options.c).

The file shallowly embeds the C functions of lib/options.c: the sscanf
format strings used there ("%d,%d", "%d,%d,%d,%d", "%f,%f", "%d") are
modelled character by character, machine integers are unbounded
integers wrapped through an explicit two's-complement reinterpretation
where the C code stores into an int32_t/uint32_t slot, printf-style
formatting is modelled as the produced string, and fallible parsers
return Option.  Entities that live in headers outside the visible
source (the Options/Wipes struct layouts, the pixel helpers, the
enclosed-area computation) are modelled from the specification and say
so in their doc comments.
-/

namespace Unpaper

/-! ### Character-level model of the C scanning primitives -/

/-- ASCII whitespace as recognized by isspace in the C locale, which
every sscanf numeric conversion skips. -/
def isSpaceChar (c : Char) : Bool :=
  c = ' ' || c = '\t' || c = '\n' || c = '\x0b' || c = '\x0c' || c = '\r'

/-- Decimal digit test, as consumed by the %d conversion. -/
def isDigitChar (c : Char) : Bool :=
  '0' ≤ c && c ≤ '9'

/-- Skip the leading whitespace that a numeric sscanf conversion
ignores. -/
def skipWs : List Char → List Char
  | [] => []
  | c :: cs => if isSpaceChar c then skipWs cs else c :: cs

/-- Consume a maximal run of decimal digits, accumulating their
value. -/
def scanDigits : List Char → Nat → Nat × List Char
  | [], acc => (acc, [])
  | c :: cs, acc =>
    if isDigitChar c then scanDigits cs (acc * 10 + (c.toNat - 48)) else (acc, c :: cs)

/-- Scan an unsigned decimal digit run; at least one digit is
required, otherwise the conversion is a matching failure. -/
def scanNat : List Char → Option (Nat × List Char)
  | [] => none
  | c :: cs => if isDigitChar c then some (scanDigits cs (c.toNat - 48)) else none

/-- Model of one %d conversion of sscanf: skip whitespace, read an
optional sign and then at least one decimal digit (a maximal run).
Yields the mathematical value and the unconsumed rest of the input. -/
def scanInt (s : List Char) : Option (Int × List Char) :=
  match skipWs s with
  | [] => none
  | c :: cs =>
    if c = '-' then (scanNat cs).map (fun p => (-(p.1 : Int), p.2))
    else if c = '+' then (scanNat cs).map (fun p => ((p.1 : Int), p.2))
    else (scanNat (c :: cs)).map (fun p => ((p.1 : Int), p.2))

/-- Reinterpretation of a mathematical integer as the int32_t value
the %SCNd32 conversions of options.c store (two's-complement wrap). -/
def asInt32 (v : Int) : Int :=
  (v + 2 ^ 31) % 2 ^ 32 - 2 ^ 31

/-- Reinterpretation of a mathematical integer as the uint32_t slot
parse_color scans into. -/
def asUInt32 (v : Int) : Nat :=
  (v % 2 ^ 32).toNat

/-- Model of sscanf with a format of n conversions joined by literal
commas: conversions are attempted left to right, each literal comma
must match the next input character exactly, and scanning stops at the
first failure.  The returned list holds the values assigned so far, so
its length is the count sscanf returns (an early EOF and a matching
failure both simply end the list, as both land in the same switch arm
in options.c). -/
def scanListSep (scan : List Char → Option (α × List Char)) : Nat → List Char → List α
  | 0, _ => []
  | 1, s =>
    match scan s with
    | none => []
    | some (v, _) => [v]
  | n + 2, s =>
    match scan s with
    | none => []
    | some (v, rest) =>
      match rest with
      | c :: rest2 => if c = ',' then v :: scanListSep scan (n + 1) rest2 else [v]
      | [] => [v]

/-- The %d conversion as stored: scan, then wrap into int32_t. -/
def scanInt32 (s : List Char) : Option (Int × List Char) :=
  (scanInt s).map (fun p => (asInt32 p.1, p.2))

/-- sscanf with format "%d,%d" (n = 2) or "%d,%d,%d,%d" (n = 4). -/
def scanIntsSep (n : Nat) (s : List Char) : List Int :=
  scanListSep scanInt32 n s

/-- Consume a maximal run of decimal digits, also counting how many
digits were read (needed by the fraction part of %f). -/
def scanDigitsCount : List Char → Nat → Nat → Nat × Nat × List Char
  | [], acc, k => (acc, k, [])
  | c :: cs, acc, k =>
    if isDigitChar c then scanDigitsCount cs (acc * 10 + (c.toNat - 48)) (k + 1)
    else (acc, k, c :: cs)

/-- Decimal exponent part of %f: an optional e/E followed by an
optionally signed digit run; if the digits are missing the exponent
part is treated as absent. -/
def scanExponent (s : List Char) : Int × List Char :=
  match s with
  | 'e' :: rest =>
    match rest with
    | '-' :: rest2 =>
      (match scanNat rest2 with
       | some (e, rest3) => (-(e : Int), rest3)
       | none => (0, s))
    | '+' :: rest2 =>
      (match scanNat rest2 with
       | some (e, rest3) => ((e : Int), rest3)
       | none => (0, s))
    | _ =>
      (match scanNat rest with
       | some (e, rest3) => ((e : Int), rest3)
       | none => (0, s))
  | 'E' :: rest =>
    match rest with
    | '-' :: rest2 =>
      (match scanNat rest2 with
       | some (e, rest3) => (-(e : Int), rest3)
       | none => (0, s))
    | '+' :: rest2 =>
      (match scanNat rest2 with
       | some (e, rest3) => ((e : Int), rest3)
       | none => (0, s))
    | _ =>
      (match scanNat rest with
       | some (e, rest3) => ((e : Int), rest3)
       | none => (0, s))
  | _ => (0, s)

/-- Model of one %f conversion of sscanf over the decimal forms of the
C99 subject sequence: whitespace, an optional sign, integer digits
and/or a fraction after a decimal point (at least one digit in total),
and an optional decimal exponent.  The value is kept as an exact
rational standing for the scanned magnitude; the hexadecimal, infinity
and NaN spellings of C99 strtof are not part of the model, and the
rounding to binary32 is not modelled (no claim depends on it). -/
def scanFloat (s : List Char) : Option (Rat × List Char) :=
  let body : List Char → Option (Rat × List Char) := fun t =>
    let ipart := scanDigitsCount t 0 0
    match ipart.2.2 with
    | '.' :: r2 =>
      let fpart := scanDigitsCount r2 0 0
      if ipart.2.1 = 0 && fpart.2.1 = 0 then none
      else
        let mant : Rat := (ipart.1 : Rat) + (fpart.1 : Rat) / ((10 : Rat) ^ fpart.2.1)
        let ex := scanExponent fpart.2.2
        some (mant * (10 : Rat) ^ ex.1, ex.2)
    | r1 =>
      if ipart.2.1 = 0 then none
      else
        let ex := scanExponent r1
        some ((ipart.1 : Rat) * (10 : Rat) ^ ex.1, ex.2)
  match skipWs s with
  | '-' :: cs => (body cs).map (fun p => (-p.1, p.2))
  | '+' :: cs => body cs
  | cs => body cs

/-- sscanf with format "%f,%f". -/
def scanFloatsSep (n : Nat) (s : List Char) : List Rat :=
  scanListSep scanFloat n s

/-! ### printf-style rendering -/

/-- Decimal digit character. -/
def digitChar (n : Nat) : Char := Char.ofNat (48 + n)

/-- Digit-list accumulator behind natDigits; the explicit fuel (any
bound above the value) keeps the recursion structural. -/
def natDigitsCore : Nat → Nat → List Char → List Char
  | 0, _, acc => acc
  | fuel + 1, n, acc =>
    if n < 10 then digitChar n :: acc
    else natDigitsCore fuel (n / 10) (digitChar (n % 10) :: acc)

/-- Decimal digits of a natural number, most significant first: the
rendering printf %d / %zd uses for a non-negative value. -/
def natDigits (n : Nat) : List Char := natDigitsCore (n + 1) n []

/-- Rendering of printf %PRId32: a minus sign for negatives, then the
decimal digits of the magnitude. -/
def printIntChars (i : Int) : List Char :=
  if i < 0 then '-' :: natDigits (-i).toNat else natDigits i.toNat

/-- String form of the %PRId32 rendering. -/
def printInt (i : Int) : String := ⟨printIntChars i⟩

/-- String form of the %zd rendering of a size. -/
def printNat (n : Nat) : String := ⟨natDigits n⟩

/-- Lowercase hexadecimal digit character. -/
def hexDigitChar (n : Nat) : Char :=
  if n < 10 then Char.ofNat (48 + n) else Char.ofNat (87 + n)

/-- Rendering of printf %02x on a byte value. -/
def hexByte (n : Nat) : String := ⟨[hexDigitChar (n / 16), hexDigitChar (n % 16)]⟩

/-! ### The value structs of lib/options.h -/

/-- Integer coordinate pair. -/
structure Point where
  x : Int
  y : Int
  deriving Repr, DecidableEq

/-- Axis-aligned rectangle given by its two vertices (vertex[0] and
vertex[1] in the C struct). -/
structure Rectangle where
  vertex0 : Point
  vertex1 : Point
  deriving Repr, DecidableEq

/-- Width/height pair; -1 in either field is the unset sentinel. -/
structure RectangleSize where
  width : Int
  height : Int
  deriving Repr, DecidableEq

/-- Signed horizontal/vertical offset pair. -/
structure Delta where
  horizontal : Int
  vertical : Int
  deriving Repr, DecidableEq

/-- Four non-negative margins. -/
structure Border where
  left : Int
  top : Int
  right : Int
  bottom : Int
  deriving Repr, DecidableEq

/-- RGB color with byte components. -/
structure Pixel where
  r : Nat
  g : Nat
  b : Nat
  deriving Repr, DecidableEq

/-- Direction flags; both false is the valid "none" state. -/
structure Direction where
  horizontal : Bool
  vertical : Bool
  deriving Repr, DecidableEq

/-- Selection set over sheet/page numbers: a count with two sentinel
states (-1 means select all, 0 means select none) and an index list; a
NULL indexes pointer is modelled as none. -/
structure MultiIndex where
  count : Int
  indexes : Option (List Int)
  deriving Repr, DecidableEq

/-- Bounded wipe-area list: the running count and the live entries of
the fixed areas array (entries at positions of at least count are
scratch and not part of the list). -/
structure Wipes where
  count : Nat
  areas : List Rectangle
  deriving Repr, DecidableEq

/-- Sheet layout selector; LAYOUT_SINGLE is the only enumerator
options.c names (the enum itself lives in a header not under src). -/
inductive Layout where
  | LAYOUT_SINGLE
  deriving Repr, DecidableEq

/-- Modelled from the spec: the Options record layout of lib/options.h
(not under src).  The fields listed are exactly those options_init
assigns; the remaining fields of the C struct are zeroed by the
initial memset and no claim concerns them. -/
structure Options where
  layout : Layout
  start_sheet : Int
  end_sheet : Int
  start_input : Int
  start_output : Int
  input_count : Int
  output_count : Int
  sheet_multi_index : MultiIndex
  exclude_multi_index : MultiIndex
  ignore_multi_index : MultiIndex
  insert_blank : MultiIndex
  replace_blank : MultiIndex
  no_blackfilter_multi_index : MultiIndex
  no_noisefilter_multi_index : MultiIndex
  no_blurfilter_multi_index : MultiIndex
  no_grayfilter_multi_index : MultiIndex
  no_mask_scan_multi_index : MultiIndex
  no_mask_center_multi_index : MultiIndex
  no_deskew_multi_index : MultiIndex
  no_wipe_multi_index : MultiIndex
  no_border_multi_index : MultiIndex
  no_border_scan_multi_index : MultiIndex
  no_border_align_multi_index : MultiIndex
  pre_shift : Delta
  post_shift : Delta
  sheet_size : RectangleSize
  page_size : RectangleSize
  post_page_size : RectangleSize
  stretch_size : RectangleSize
  post_stretch_size : RectangleSize
  deriving Repr, DecidableEq

/-! ### The functions of lib/options.c -/

/-- multi_index_empty: the "select none" MultiIndex. -/
def multi_index_empty : MultiIndex := ⟨0, none⟩

/-- options_init: the default Options record (memset to zero, then the
explicit field assignments of options.c lines 18-59). -/
def options_init : Options :=
  { layout := Layout.LAYOUT_SINGLE
    start_sheet := 1
    end_sheet := -1
    start_input := -1
    start_output := -1
    input_count := 1
    output_count := 1
    sheet_multi_index := ⟨-1, none⟩
    exclude_multi_index := multi_index_empty
    ignore_multi_index := multi_index_empty
    insert_blank := multi_index_empty
    replace_blank := multi_index_empty
    no_blackfilter_multi_index := multi_index_empty
    no_noisefilter_multi_index := multi_index_empty
    no_blurfilter_multi_index := multi_index_empty
    no_grayfilter_multi_index := multi_index_empty
    no_mask_scan_multi_index := multi_index_empty
    no_mask_center_multi_index := multi_index_empty
    no_deskew_multi_index := multi_index_empty
    no_wipe_multi_index := multi_index_empty
    no_border_multi_index := multi_index_empty
    no_border_scan_multi_index := multi_index_empty
    no_border_align_multi_index := multi_index_empty
    pre_shift := ⟨0, 0⟩
    post_shift := ⟨0, 0⟩
    sheet_size := ⟨-1, -1⟩
    page_size := ⟨-1, -1⟩
    post_page_size := ⟨-1, -1⟩
    stretch_size := ⟨-1, -1⟩
    post_stretch_size := ⟨-1, -1⟩ }

/-- Modelled from the spec: count_pixels (imageprocess rectangle code,
not under src).  The enclosed pixel area of the rectangle spanned by
the two vertices; the spec makes a rectangle valid only when this is
strictly positive, with "0,0,0,0" having zero area, "0,0,10,10"
positive area, and inverted rectangles rejected, so the area is the
product of the signed extents. -/
def count_pixels (r : Rectangle) : Int :=
  (r.vertex1.x - r.vertex0.x) * (r.vertex1.y - r.vertex0.y)

/-- parse_rectangle: sscanf "%d,%d,%d,%d" into the two vertices, then
accept only a strictly positive enclosed area.  Failure is none (the C
output argument is unspecified on failure). -/
def parse_rectangle (str : String) : Option Rectangle :=
  match scanIntsSep 4 str.data with
  | [x0, y0, x1, y1] =>
    if count_pixels ⟨⟨x0, y0⟩, ⟨x1, y1⟩⟩ > 0 then some ⟨⟨x0, y0⟩, ⟨x1, y1⟩⟩ else none
  | _ => none

/-- print_rectangle: printf of the bracketed four-field form. -/
def print_rectangle (r : Rectangle) : String :=
  "[" ++ printInt r.vertex0.x ++ "," ++ printInt r.vertex0.y ++ "," ++
    printInt r.vertex1.x ++ "," ++ printInt r.vertex1.y ++ "] "

/-- parse_symmetric_integers: sscanf "%d,%d"; one scanned value is
broadcast to both slots, two are stored as given, zero is a failure. -/
def parse_symmetric_integers (str : String) : Option (Int × Int) :=
  match scanIntsSep 2 str.data with
  | [v1] => some (v1, v1)
  | [v1, v2] => some (v1, v2)
  | _ => none

/-- parse_symmetric_floats: sscanf "%f,%f" with the same switch. -/
def parse_symmetric_floats (str : String) : Option (Rat × Rat) :=
  match scanFloatsSep 2 str.data with
  | [v1] => some (v1, v1)
  | [v1, v2] => some (v1, v2)
  | _ => none

/-- parse_rectangle_size: symmetric integer pair, then both dimensions
must be non-negative. -/
def parse_rectangle_size (str : String) : Option RectangleSize :=
  match parse_symmetric_integers str with
  | none => none
  | some (w, h) => if w ≥ 0 ∧ h ≥ 0 then some ⟨w, h⟩ else none

/-- print_rectangle_size: printf of the bracketed pair form. -/
def print_rectangle_size (s : RectangleSize) : String :=
  "[" ++ printInt s.width ++ "," ++ printInt s.height ++ "] "

/-- parse_delta: a symmetric integer pair with no extra validation. -/
def parse_delta (str : String) : Option Delta :=
  (parse_symmetric_integers str).map (fun p => ⟨p.1, p.2⟩)

/-- parse_scan_step: parse_delta, then both components must be
strictly positive. -/
def parse_scan_step (str : String) : Option Delta :=
  match parse_delta str with
  | none => none
  | some d => if d.horizontal > 0 ∧ d.vertical > 0 then some d else none

/-- print_delta: printf of the bracketed pair form. -/
def print_delta (d : Delta) : String :=
  "[" ++ printInt d.horizontal ++ "," ++ printInt d.vertical ++ "] "

/-- The ASCII single-quote character of the wipe diagnostics. -/
def squoteChar : Char := Char.ofNat 39

/-- A string wrapped in single quotes, as the wipe diagnostics print
the rejected text. -/
def squote (s : String) : String := ⟨squoteChar :: (s.data ++ [squoteChar])⟩

/-- parse_wipe.  The C capacity sizeof(areas)/sizeof(areas[0]) is a
compile-time constant of lib/options.h (not under src) and is passed
here as the explicit argument cap.  Returns the success flag, the
updated list, and the stderr diagnostic, if any. -/
def parse_wipe (cap : Nat) (optname str : String) (w : Wipes) :
    Bool × Wipes × Option String :=
  if w.count ≥ cap then
    (false, w,
      some (optname ++ ": maximum number of wipes (" ++ printNat cap ++
        ") exceeded, ignoring " ++ squote str))
  else
    match parse_rectangle str with
    | none =>
      (false, w, some (optname ++ ": invalid wipe definition, ignoring " ++ squote str))
    | some r => (true, ⟨w.count + 1, w.areas ++ [r]⟩, none)

/-- A sequence of parse_wipe calls (one option name and text per call)
folded over a starting list, keeping only the evolving Wipes state. -/
def runWipes (cap : Nat) (calls : List (String × String)) (w : Wipes) : Wipes :=
  calls.foldl (fun acc c => (parse_wipe cap c.1 c.2 acc).2.1) w

/-- parse_border: sscanf "%d,%d,%d,%d", then all four margins must be
non-negative. -/
def parse_border (str : String) : Option Border :=
  match scanIntsSep 4 str.data with
  | [l, t, r, b] =>
    if l ≥ 0 ∧ t ≥ 0 ∧ r ≥ 0 ∧ b ≥ 0 then some ⟨l, t, r, b⟩ else none
  | _ => none

/-- print_border: printf of the bracketed four-field form. -/
def print_border (b : Border) : String :=
  "[" ++ printInt b.left ++ "," ++ printInt b.top ++ "," ++
    printInt b.right ++ "," ++ printInt b.bottom ++ "] "

/-- Modelled from the spec: pixel_from_value (imageprocess/pixel.h,
not under src) — construction of a Pixel from a single unsigned
numeric literal interpreted as a packed color value, the same #rrggbb
packing print_color renders. -/
def pixel_from_value (v : Nat) : Pixel :=
  ⟨v / 65536 % 256, v / 256 % 256, v % 256⟩

/-- Modelled from the spec: the reserved constant for black, the zero
color in the packed #rrggbb representation. -/
def PIXEL_BLACK : Pixel := ⟨0, 0, 0⟩

/-- Modelled from the spec: the reserved constant for white, the
full-intensity color in the packed #rrggbb representation. -/
def PIXEL_WHITE : Pixel := ⟨255, 255, 255⟩

/-- Modelled from the spec: compare_pixel (imageprocess/pixel.h, not
under src), used by options.c only through its zero test, i.e. as
pixel equality. -/
def compare_pixel (p q : Pixel) : Int :=
  if p = q then 0 else 1

/-- parse_color: the case-sensitive words black and white map to the
reserved constants; otherwise one %d conversion is scanned into the
uint32_t slot and the packed value is unpacked into a Pixel. -/
def parse_color (str : String) : Option Pixel :=
  if str = "black" then some PIXEL_BLACK
  else if str = "white" then some PIXEL_WHITE
  else
    match scanInt str.data with
    | none => none
    | some (v, _) => some (pixel_from_value (asUInt32 v))

/-- print_color: the two reserved constants print as their words
(decided through compare_pixel), every other color with printf
"#%02x%02x%02x". -/
def print_color (p : Pixel) : String :=
  if compare_pixel p PIXEL_BLACK = 0 then "black"
  else if compare_pixel p PIXEL_WHITE = 0 then "white"
  else "#" ++ hexByte p.r ++ hexByte p.g ++ hexByte p.b

/-- Model of strchr(str, c) != NULL for a non-NUL character: does c
occur in the string? -/
def strchrHit (s : List Char) (c : Char) : Bool :=
  match s with
  | [] => false
  | d :: ds => d = c || strchrHit ds c

/-- ASCII lowercasing, as the C locale tolower used by strcasecmp. -/
def asciiLower (c : Char) : Char :=
  if 'A' ≤ c && c ≤ 'Z' then Char.ofNat (c.toNat + 32) else c

/-- Model of strcasecmp(a, b) == 0: equality up to ASCII case. -/
def strcaseEq (a b : List Char) : Bool :=
  match a, b with
  | [], [] => true
  | x :: xs, y :: ys => asciiLower x = asciiLower y && strcaseEq xs ys
  | _, _ => false

/-- parse_direction: both flags are written from the character scans
before the return decision, so the output is always fully defined; the
call succeeds when a flag was set or the string is "none" up to case.
Returns the success flag together with the written Direction. -/
def parse_direction (str : String) : Bool × Direction :=
  let d : Direction :=
    { horizontal := strchrHit str.data 'h' || strchrHit str.data 'H'
      vertical := strchrHit str.data 'v' || strchrHit str.data 'V' }
  (d.horizontal || d.vertical || strcaseEq str.data "none".data, d)

/-- direction_to_string: one of the four fixed canonical strings. -/
def direction_to_string (d : Direction) : String :=
  if d.horizontal && d.vertical then "[horizontal,vertical]"
  else if d.horizontal then "[horizontal]"
  else if d.vertical then "[vertical]"
  else "[none]"

/-! ### Helper notions for the statements and proofs -/

/-- The input either ends or continues with a non-digit, so a digit
run scanned in front of it stops exactly there. -/
def headNotDigit (l : List Char) : Bool :=
  match l with
  | [] => true
  | c :: _ => !isDigitChar c

/-- The range of int32_t, the type of every scanned field. -/
def int32Range (v : Int) : Prop :=
  -(2 ^ 31) ≤ v ∧ v < 2 ^ 31

instance (v : Int) : Decidable (int32Range v) := by
  unfold int32Range
  infer_instance

/-- The comma-separated body of the print_rectangle rendering (what
stands between the bracket decoration). -/
def rectangleCore (r : Rectangle) : String :=
  ⟨printIntChars r.vertex0.x ++ ',' :: (printIntChars r.vertex0.y ++
    ',' :: (printIntChars r.vertex1.x ++ ',' :: printIntChars r.vertex1.y))⟩

/-- The comma-separated body of the print_rectangle_size rendering. -/
def sizeCore (s : RectangleSize) : String :=
  ⟨printIntChars s.width ++ ',' :: printIntChars s.height⟩

/-- The comma-separated body of the print_delta rendering. -/
def deltaCore (d : Delta) : String :=
  ⟨printIntChars d.horizontal ++ ',' :: printIntChars d.vertical⟩

/-- The comma-separated body of the print_border rendering. -/
def borderCore (b : Border) : String :=
  ⟨printIntChars b.left ++ ',' :: (printIntChars b.top ++
    ',' :: (printIntChars b.right ++ ',' :: printIntChars b.bottom))⟩

/-! ### Generic facts about the scanning primitives -/

theorem strchrHit_iff (s : List Char) (c : Char) :
    strchrHit s c = true ↔ c ∈ s := by
  induction s with
  | nil => simp [strchrHit]
  | cons d ds ih =>
    have hstep : strchrHit (d :: ds) c = (decide (d = c) || strchrHit ds c) := rfl
    rw [hstep]
    simp only [Bool.or_eq_true, decide_eq_true_eq, ih, List.mem_cons]
    constructor
    · rintro (rfl | hm)
      · exact Or.inl rfl
      · exact Or.inr hm
    · rintro (rfl | hm)
      · exact Or.inl rfl
      · exact Or.inr hm

theorem strcaseEq_iff (a b : List Char) :
    strcaseEq a b = true ↔ a.map asciiLower = b.map asciiLower := by
  induction a generalizing b with
  | nil =>
    cases b with
    | nil =>
      have ht : strcaseEq [] [] = true := rfl
      rw [ht]; simp
    | cons y ys =>
      have hf : strcaseEq [] (y :: ys) = false := rfl
      rw [hf]; simp
  | cons x xs ih =>
    cases b with
    | nil =>
      have hf : strcaseEq (x :: xs) [] = false := rfl
      rw [hf]; simp
    | cons y ys =>
      have hstep : strcaseEq (x :: xs) (y :: ys) =
          (decide (asciiLower x = asciiLower y) && strcaseEq xs ys) := rfl
      rw [hstep]
      simp [ih]

/-! ### The printed decimal form scans back to the printed value -/

theorem digitChar_isDigit {k : Nat} (h : k < 10) : isDigitChar (digitChar k) = true := by
  interval_cases k <;> decide

theorem digitChar_val {k : Nat} (h : k < 10) : (digitChar k).toNat - 48 = k := by
  interval_cases k <;> decide

theorem digit_not_space {c : Char} (h : isDigitChar c = true) : isSpaceChar c = false := by
  cases hs : isSpaceChar c with
  | false => rfl
  | true =>
    exfalso
    simp only [isSpaceChar, Bool.or_eq_true, decide_eq_true_eq] at hs
    rcases hs with ((((h1 | h1) | h1) | h1) | h1) | h1 <;> subst h1 <;>
      simp [isDigitChar] at h

theorem digit_ne_minus {c : Char} (h : isDigitChar c = true) : ¬ c = '-' := by
  rintro rfl
  simp [isDigitChar] at h

theorem digit_ne_plus {c : Char} (h : isDigitChar c = true) : ¬ c = '+' := by
  rintro rfl
  simp [isDigitChar] at h

theorem skipWs_cons_of_not_space {c : Char} (l : List Char) (h : isSpaceChar c = false) :
    skipWs (c :: l) = c :: l := by
  unfold skipWs
  rw [if_neg (by simp [h])]

theorem scanInt_cons (c : Char) (cs : List Char) (hns : isSpaceChar c = false) :
    scanInt (c :: cs) =
      if c = '-' then (scanNat cs).map (fun p => (-(p.1 : Int), p.2))
      else if c = '+' then (scanNat cs).map (fun p => ((p.1 : Int), p.2))
      else (scanNat (c :: cs)).map (fun p => ((p.1 : Int), p.2)) := by
  unfold scanInt
  rw [skipWs_cons_of_not_space cs hns]

theorem scanDigits_append : ∀ (ds rest : List Char) (acc : Nat),
    (∀ c ∈ ds, isDigitChar c = true) → headNotDigit rest = true →
    scanDigits (ds ++ rest) acc =
      (ds.foldl (fun a c => a * 10 + (c.toNat - 48)) acc, rest) := by
  intro ds
  induction ds with
  | nil =>
    intro rest acc _ hrest
    cases rest with
    | nil => rfl
    | cons c cs =>
      have hc : isDigitChar c = false := by
        simpa [headNotDigit] using hrest
      show scanDigits (c :: cs) acc = (acc, c :: cs)
      unfold scanDigits
      rw [if_neg (by simp [hc])]
  | cons d ds ih =>
    intro rest acc hds hrest
    have hd : isDigitChar d = true := hds d (by simp)
    show scanDigits (d :: (ds ++ rest)) acc = _
    unfold scanDigits
    rw [if_pos hd, ih rest _ (fun c hc => hds c (by simp [hc])) hrest]
    simp

theorem natDigitsCore_irrel : ∀ (n f1 f2 : Nat) (acc : List Char), n < f1 → n < f2 →
    natDigitsCore f1 n acc = natDigitsCore f2 n acc := by
  intro n
  induction n using Nat.strong_induction_on with
  | _ n ih =>
    intro f1 f2 acc h1 h2
    cases f1 with
    | zero => omega
    | succ a =>
      cases f2 with
      | zero => omega
      | succ b =>
        unfold natDigitsCore
        by_cases h : n < 10
        · rw [if_pos h, if_pos h]
        · rw [if_neg h, if_neg h]
          exact ih (n / 10) (Nat.div_lt_self (by omega) (by omega)) a b _
            (by omega) (by omega)

theorem natDigitsCore_acc : ∀ (fuel n : Nat) (acc : List Char),
    natDigitsCore fuel n acc = natDigitsCore fuel n [] ++ acc := by
  intro fuel
  induction fuel with
  | zero => intro n acc; rfl
  | succ f ih =>
    intro n acc
    unfold natDigitsCore
    by_cases h : n < 10
    · rw [if_pos h, if_pos h]
      rfl
    · rw [if_neg h, if_neg h]
      rw [ih (n / 10) (digitChar (n % 10) :: acc), ih (n / 10) [digitChar (n % 10)]]
      simp

/-- The one-step unfolding of natDigits as a recursion on the value:
a single digit below ten, otherwise the digits of the quotient
followed by the last digit. -/
theorem natDigits_step (n : Nat) :
    natDigits n =
      if n < 10 then [digitChar n] else natDigits (n / 10) ++ [digitChar (n % 10)] := by
  by_cases h : n < 10
  · rw [if_pos h]
    unfold natDigits natDigitsCore
    rw [if_pos h]
  · rw [if_neg h]
    unfold natDigits natDigitsCore
    rw [if_neg h]
    rw [natDigitsCore_acc n (n / 10) [digitChar (n % 10)]]
    congr 1
    exact natDigitsCore_irrel (n / 10) n (n / 10 + 1) []
      (by omega) (by omega)

theorem natDigits_ne_nil (n : Nat) : natDigits n ≠ [] := by
  rw [natDigits_step]
  split
  · simp
  · simp

theorem natDigits_digits (n : Nat) : ∀ c ∈ natDigits n, isDigitChar c = true := by
  induction n using Nat.strong_induction_on with
  | _ n ih =>
    intro c hc
    by_cases h : n < 10
    · rw [natDigits_step, if_pos h] at hc
      simp only [List.mem_singleton] at hc
      subst hc
      exact digitChar_isDigit h
    · rw [natDigits_step, if_neg h] at hc
      rcases List.mem_append.mp hc with h1 | h2
      · exact ih (n / 10) (Nat.div_lt_self (by omega) (by omega)) c h1
      · simp only [List.mem_singleton] at h2
        subst h2
        exact digitChar_isDigit (Nat.mod_lt _ (by omega))

theorem foldl_natDigits : ∀ (n acc : Nat),
    (natDigits n).foldl (fun a c => a * 10 + (c.toNat - 48)) acc =
      acc * 10 ^ (natDigits n).length + n := by
  intro n
  induction n using Nat.strong_induction_on with
  | _ n ih =>
    intro acc
    by_cases h : n < 10
    · rw [natDigits_step, if_pos h]
      simp only [List.foldl_cons, List.foldl_nil, List.length_singleton, pow_one]
      rw [digitChar_val h]
    · rw [natDigits_step, if_neg h]
      rw [List.foldl_append, ih (n / 10) (Nat.div_lt_self (by omega) (by omega)) acc]
      simp only [List.foldl_cons, List.foldl_nil, List.length_append,
        List.length_singleton]
      rw [digitChar_val (Nat.mod_lt _ (by omega))]
      have hmod : n / 10 * 10 + n % 10 = n := by omega
      calc (acc * 10 ^ (natDigits (n / 10)).length + n / 10) * 10 + n % 10
          = acc * (10 ^ (natDigits (n / 10)).length * 10) +
            (n / 10 * 10 + n % 10) := by ring
        _ = acc * 10 ^ ((natDigits (n / 10)).length + 1) + n := by
            rw [hmod, pow_succ]

theorem scanNat_natDigits (n : Nat) (rest : List Char)
    (hrest : headNotDigit rest = true) :
    scanNat (natDigits n ++ rest) = some (n, rest) := by
  cases hD : natDigits n with
  | nil => exact absurd hD (natDigits_ne_nil n)
  | cons c ds =>
    have hc : isDigitChar c = true := natDigits_digits n c (by rw [hD]; simp)
    have hds : ∀ x ∈ ds, isDigitChar x = true := fun x hx =>
      natDigits_digits n x (by rw [hD]; simp [hx])
    have hfold := foldl_natDigits n 0
    rw [hD] at hfold
    simp only [List.foldl_cons, Nat.zero_mul, Nat.zero_add] at hfold
    show scanNat ((c :: ds) ++ rest) = some (n, rest)
    show (if isDigitChar c = true then some (scanDigits (ds ++ rest) (c.toNat - 48))
      else none) = some (n, rest)
    rw [if_pos hc, scanDigits_append ds rest _ hds hrest]
    rw [hfold]

theorem scanInt_printInt (i : Int) (rest : List Char)
    (hrest : headNotDigit rest = true) :
    scanInt (printIntChars i ++ rest) = some (i, rest) := by
  by_cases hi : i < 0
  · unfold printIntChars
    rw [if_pos hi]
    show scanInt ('-' :: (natDigits (-i).toNat ++ rest)) = some (i, rest)
    rw [scanInt_cons '-' _ (by decide), if_pos rfl, scanNat_natDigits _ rest hrest]
    have hni : ((-i).toNat : Int) = -i := Int.toNat_of_nonneg (by omega)
    simp [hni]
  · unfold printIntChars
    rw [if_neg hi]
    cases hD : natDigits i.toNat with
    | nil => exact absurd hD (natDigits_ne_nil i.toNat)
    | cons c ds =>
      have hc : isDigitChar c = true := natDigits_digits i.toNat c (by rw [hD]; simp)
      have hsc := scanNat_natDigits i.toNat rest hrest
      rw [hD] at hsc
      show scanInt ((c :: ds) ++ rest) = some (i, rest)
      show scanInt (c :: (ds ++ rest)) = some (i, rest)
      rw [scanInt_cons c _ (digit_not_space hc), if_neg (digit_ne_minus hc),
        if_neg (digit_ne_plus hc)]
      show ((scanNat ((c :: ds) ++ rest)).map (fun p => ((p.1 : Int), p.2))) = _
      rw [hsc]
      simp [Int.toNat_of_nonneg (by omega : (0 : Int) ≤ i)]

theorem asInt32_eq_self {v : Int} (h : int32Range v) : asInt32 v = v := by
  obtain ⟨h1, h2⟩ := h
  unfold asInt32
  have e31 : (2 : Int) ^ 31 = 2147483648 := by norm_num
  have e32 : (2 : Int) ^ 32 = 4294967296 := by norm_num
  rw [e31, e32] at *
  omega

theorem scanInt32_printInt (i : Int) (rest : List Char) (hi : int32Range i)
    (hrest : headNotDigit rest = true) :
    scanInt32 (printIntChars i ++ rest) = some (i, rest) := by
  unfold scanInt32
  rw [scanInt_printInt i rest hrest]
  simp [asInt32_eq_self hi]

theorem scanListSep_step (scan : List Char → Option (α × List Char)) {m n k : Nat}
    (hm : m = n + 2) (hk : n + 1 = k) (s r2 : List Char) (v : α)
    (h : scan s = some (v, ',' :: r2)) :
    scanListSep scan m s = v :: scanListSep scan k r2 := by
  subst hm
  subst hk
  conv_lhs => rw [scanListSep]
  rw [h]
  rfl

theorem scanListSep_stop (scan : List Char → Option (α × List Char)) {m n : Nat}
    (hm : m = n + 2) (s : List Char) (v : α) (h : scan s = some (v, [])) :
    scanListSep scan m s = [v] := by
  subst hm
  unfold scanListSep
  rw [h]

theorem scanListSep_last (scan : List Char → Option (α × List Char))
    (s r : List Char) (v : α) (h : scan s = some (v, r)) :
    scanListSep scan 1 s = [v] := by
  unfold scanListSep
  rw [h]

theorem scanIntsSep_single (a : Int) (ha : int32Range a) :
    scanIntsSep 2 (printIntChars a) = [a] := by
  unfold scanIntsSep
  refine scanListSep_stop scanInt32 rfl _ a ?_
  have h := scanInt32_printInt a [] ha rfl
  rwa [List.append_nil] at h

theorem scanIntsSep_pair (a b : Int) (ha : int32Range a) (hb : int32Range b) :
    scanIntsSep 2 (printIntChars a ++ ',' :: printIntChars b) = [a, b] := by
  unfold scanIntsSep
  rw [scanListSep_step scanInt32 rfl rfl _ _ a
    (scanInt32_printInt a (',' :: printIntChars b) ha rfl)]
  have hb2 : scanInt32 (printIntChars b) = some (b, []) := by
    have h := scanInt32_printInt b [] hb rfl
    rwa [List.append_nil] at h
  rw [scanListSep_last scanInt32 _ _ b hb2]

theorem scanIntsSep_quad (a b c d : Int) (ha : int32Range a) (hb : int32Range b)
    (hc : int32Range c) (hd : int32Range d) :
    scanIntsSep 4 (printIntChars a ++ ',' :: (printIntChars b ++
      ',' :: (printIntChars c ++ ',' :: printIntChars d))) = [a, b, c, d] := by
  unfold scanIntsSep
  rw [scanListSep_step scanInt32 rfl rfl _ _ a (scanInt32_printInt a _ ha rfl)]
  rw [scanListSep_step scanInt32 rfl rfl _ _ b (scanInt32_printInt b _ hb rfl)]
  rw [scanListSep_step scanInt32 rfl rfl _ _ c (scanInt32_printInt c _ hc rfl)]
  have hd2 : scanInt32 (printIntChars d) = some (d, []) := by
    have h := scanInt32_printInt d [] hd rfl
    rwa [List.append_nil] at h
  rw [scanListSep_last scanInt32 _ _ d hd2]

/-! ### Claim theorems -/

/-- C1: options_init, a total operation with no error path, yields the
default record: the primary sheet selection is the select-all sentinel
(count -1, null indexes), every per-operation selection set is select
none (count 0, null indexes), the sheet range runs from 1 with the
unbounded -1 end, input and output counts are 1, the start indexes are
the -1 unset sentinel, all five size-like fields are the (-1, -1)
unset sentinel, and both shift offsets are (0, 0). -/
theorem options_init_defaults :
    options_init.sheet_multi_index = ⟨-1, none⟩ ∧
    (options_init.exclude_multi_index = ⟨0, none⟩ ∧
     options_init.ignore_multi_index = ⟨0, none⟩ ∧
     options_init.insert_blank = ⟨0, none⟩ ∧
     options_init.replace_blank = ⟨0, none⟩ ∧
     options_init.no_blackfilter_multi_index = ⟨0, none⟩ ∧
     options_init.no_noisefilter_multi_index = ⟨0, none⟩ ∧
     options_init.no_blurfilter_multi_index = ⟨0, none⟩ ∧
     options_init.no_grayfilter_multi_index = ⟨0, none⟩ ∧
     options_init.no_mask_scan_multi_index = ⟨0, none⟩ ∧
     options_init.no_mask_center_multi_index = ⟨0, none⟩ ∧
     options_init.no_deskew_multi_index = ⟨0, none⟩ ∧
     options_init.no_wipe_multi_index = ⟨0, none⟩ ∧
     options_init.no_border_multi_index = ⟨0, none⟩ ∧
     options_init.no_border_scan_multi_index = ⟨0, none⟩ ∧
     options_init.no_border_align_multi_index = ⟨0, none⟩) ∧
    options_init.start_sheet = 1 ∧
    options_init.end_sheet = -1 ∧
    options_init.input_count = 1 ∧
    options_init.output_count = 1 ∧
    options_init.start_input = -1 ∧
    options_init.start_output = -1 ∧
    options_init.sheet_size = ⟨-1, -1⟩ ∧
    options_init.page_size = ⟨-1, -1⟩ ∧
    options_init.post_page_size = ⟨-1, -1⟩ ∧
    options_init.stretch_size = ⟨-1, -1⟩ ∧
    options_init.post_stretch_size = ⟨-1, -1⟩ ∧
    options_init.pre_shift = ⟨0, 0⟩ ∧
    options_init.post_shift = ⟨0, 0⟩ := by
  decide

/-- C5: parse_direction sets the horizontal flag exactly when h or H
occurs anywhere in the input, independently sets the vertical flag
exactly when v or V occurs anywhere, and succeeds exactly when a flag
became true or the whole string equals "none" up to ASCII case; the
three cited examples behave as stated. -/
theorem parse_direction_spec :
    (∀ s : String,
      ((parse_direction s).2.horizontal = true ↔ 'h' ∈ s.data ∨ 'H' ∈ s.data) ∧
      ((parse_direction s).2.vertical = true ↔ 'v' ∈ s.data ∨ 'V' ∈ s.data) ∧
      ((parse_direction s).1 = true ↔
        (parse_direction s).2.horizontal = true ∨
        (parse_direction s).2.vertical = true ∨
        s.data.map asciiLower = "none".data)) ∧
    parse_direction "h" = (true, ⟨true, false⟩) ∧
    parse_direction "none" = (true, ⟨false, false⟩) ∧
    parse_direction "xyz" = (false, ⟨false, false⟩) := by
  refine ⟨fun s => ⟨?_, ?_, ?_⟩, by decide, by decide, by decide⟩
  · simp [parse_direction, strchrHit_iff]
  · simp [parse_direction, strchrHit_iff]
  · have hmap : ("none".data : List Char).map asciiLower = "none".data := by decide
    simp [parse_direction, strcaseEq_iff, hmap, or_assoc]

/-- C10: parse_direction always fully defines its output: whenever it
fails it has written both flags false, the exact state a successful
parse of "none" produces. -/
theorem parse_direction_failure_writes_none (s : String)
    (h : (parse_direction s).1 = false) :
    (parse_direction s).2 = ⟨false, false⟩ ∧
    (parse_direction s).2 = (parse_direction "none").2 := by
  have hnone : (parse_direction "none").2 = ⟨false, false⟩ := by decide
  simp only [parse_direction, Bool.or_eq_false_iff] at h
  obtain ⟨⟨⟨hA, hB⟩, ⟨hC, hD⟩⟩, hE⟩ := h
  rw [hnone]
  refine ⟨?_, ?_⟩ <;> simp [parse_direction, hA, hB, hC, hD]

/-- Witness for C10 at the failing input "xyz". -/
theorem parse_direction_failure_writes_none_witness :
    (parse_direction "xyz").2 = ⟨false, false⟩ ∧
    (parse_direction "xyz").2 = (parse_direction "none").2 :=
  parse_direction_failure_writes_none "xyz" (by decide)

/-- C7: parse_color maps the exact case-sensitive words black and
white to the two reserved constants, print_color renders exactly those
two constants back as the literal words, and every other byte color
prints as a #rrggbb hexadecimal triplet. -/
theorem color_reserved_words_roundtrip :
    parse_color "black" = some PIXEL_BLACK ∧
    parse_color "white" = some PIXEL_WHITE ∧
    print_color PIXEL_BLACK = "black" ∧
    print_color PIXEL_WHITE = "white" ∧
    ∀ p : Pixel, p ≠ PIXEL_BLACK → p ≠ PIXEL_WHITE →
      print_color p = "#" ++ hexByte p.r ++ hexByte p.g ++ hexByte p.b := by
  refine ⟨by decide, by decide, by decide, by decide, fun p h1 h2 => ?_⟩
  simp [print_color, compare_pixel, h1, h2]

/-- Witness for C7 at the non-reserved color 0xff0000. -/
theorem color_reserved_words_roundtrip_witness :
    print_color ⟨255, 0, 0⟩ = "#" ++ hexByte 255 ++ hexByte 0 ++ hexByte 0 :=
  color_reserved_words_roundtrip.2.2.2.2 ⟨255, 0, 0⟩ (by decide) (by decide)

/-- C8 is false as stated: 16777215 is the packed white value
0xffffff, so the numeric fallback yields the reserved white constant
and print_color renders the word "white" — not a hexadecimal triplet
(the output does not even start with the hash character). -/
theorem parse_color_16777215_prints_word :
    parse_color "16777215" = some PIXEL_WHITE ∧
    print_color PIXEL_WHITE = "white" ∧
    (print_color PIXEL_WHITE).data.head? ≠ some '#' := by
  refine ⟨by decide, by decide, by decide⟩

/-- C8 amended: parse_color("16777215") succeeds via the numeric
fallback, but the packed value equals the reserved white constant, so
print_color renders it as the literal word "white"; a numeric color
distinct from both reserved constants, such as "16711680" (0xff0000),
does round-trip through hex formatting. -/
theorem parse_color_numeric_fallback :
    parse_color "16777215" = some PIXEL_WHITE ∧
    print_color PIXEL_WHITE = "white" ∧
    parse_color "16711680" = some ⟨255, 0, 0⟩ ∧
    print_color ⟨255, 0, 0⟩ = "#ff0000" := by
  refine ⟨by decide, by decide, by decide, by decide⟩

/-- C9: parse_scan_step succeeds exactly when the text parses as a
delta whose two components are strictly positive (and then returns
that delta); "5,5" is accepted while "0,5" and "-1,-1" are rejected. -/
theorem parse_scan_step_spec :
    (∀ s : String,
      ((parse_scan_step s).isSome = true ↔
        ∃ d : Delta, parse_delta s = some d ∧ 0 < d.horizontal ∧ 0 < d.vertical) ∧
      ∀ d : Delta, parse_scan_step s = some d →
        parse_delta s = some d ∧ 0 < d.horizontal ∧ 0 < d.vertical) ∧
    parse_scan_step "5,5" = some ⟨5, 5⟩ ∧
    parse_scan_step "0,5" = none ∧
    parse_scan_step "-1,-1" = none := by
  refine ⟨fun s => ⟨?_, ?_⟩, by decide, by decide, by decide⟩
  · unfold parse_scan_step
    cases hd : parse_delta s with
    | none => simp
    | some d =>
      show (if d.horizontal > 0 ∧ d.vertical > 0 then some d else none).isSome = true ↔ _
      split_ifs with hp
      · exact iff_of_true rfl ⟨d, rfl, by omega, by omega⟩
      · refine iff_of_false (by decide) ?_
        rintro ⟨d2, hd2, hp1, hp2⟩
        obtain rfl : d = d2 := by injection hd2
        exact hp ⟨by omega, by omega⟩
  · intro d2 hsome
    unfold parse_scan_step at hsome
    cases hd : parse_delta s with
    | none =>
      rw [hd] at hsome
      exact absurd hsome (by simp)
    | some d =>
      rw [hd] at hsome
      have hsome2 : (if d.horizontal > 0 ∧ d.vertical > 0 then some d else none) =
          some d2 := hsome
      split_ifs at hsome2 with hp
      obtain rfl : d = d2 := by injection hsome2
      exact ⟨rfl, by omega, by omega⟩

/-- Witness for C9 at the accepted input "5,5". -/
theorem parse_scan_step_spec_witness :
    parse_delta "5,5" = some ⟨5, 5⟩ ∧ 0 < (5 : Int) ∧ 0 < (5 : Int) := by
  have h := (parse_scan_step_spec.1 "5,5").2 ⟨5, 5⟩ parse_scan_step_spec.2.1
  exact h

/-- C2: parse_rectangle succeeds exactly when the text scans as four
comma-separated integers whose two vertices enclose a strictly
positive pixel area; "0,0,0,0" is rejected (zero area) and
"0,0,10,10" yields the vertices (0,0) and (10,10). -/
theorem parse_rectangle_spec :
    (∀ s : String,
      (parse_rectangle s).isSome = true ↔
        ∃ x0 y0 x1 y1 : Int, scanIntsSep 4 s.data = [x0, y0, x1, y1] ∧
          0 < (x1 - x0) * (y1 - y0)) ∧
    parse_rectangle "0,0,0,0" = none ∧
    parse_rectangle "0,0,10,10" = some ⟨⟨0, 0⟩, ⟨10, 10⟩⟩ := by
  refine ⟨fun s => ?_, by decide, by decide⟩
  unfold parse_rectangle
  cases hl : scanIntsSep 4 s.data with
  | nil => simp
  | cons a t1 =>
    cases t1 with
    | nil => simp
    | cons b t2 =>
      cases t2 with
      | nil => simp
      | cons c t3 =>
        cases t3 with
        | nil => simp
        | cons d t4 =>
          cases t4 with
          | cons e t5 => simp
          | nil =>
            show (if count_pixels ⟨⟨a, b⟩, ⟨c, d⟩⟩ > 0 then
                some (⟨⟨a, b⟩, ⟨c, d⟩⟩ : Rectangle) else none).isSome = true ↔ _
            split_ifs with hp
            · refine iff_of_true rfl ⟨a, b, c, d, rfl, ?_⟩
              simpa [count_pixels] using hp
            · refine iff_of_false (by decide) ?_
              rintro ⟨x0, y0, x1, y1, hlist, hpos⟩
              obtain ⟨rfl, rfl, rfl, rfl⟩ :
                  a = x0 ∧ b = y0 ∧ c = x1 ∧ d = y1 := by
                simpa using hlist
              exact hp (by simpa [count_pixels] using hpos)

/-- The joined-scan list never holds more values than the format has
conversions. -/
theorem scanListSep_length_le (scan : List Char → Option (α × List Char)) :
    ∀ (n : Nat) (s : List Char), (scanListSep scan n s).length ≤ n
  | 0, _ => by simp [scanListSep]
  | 1, s => by
    unfold scanListSep
    cases scan s with
    | none => simp
    | some p => simp
  | n + 2, s => by
    unfold scanListSep
    cases scan s with
    | none => simp
    | some p =>
      obtain ⟨v, rest⟩ := p
      cases rest with
      | nil =>
        show ([v] : List α).length ≤ n + 2
        simp
      | cons c rest2 =>
        show (if c = ',' then v :: scanListSep scan (n + 1) rest2 else [v]).length ≤ n + 2
        split_ifs with hc
        · simpa using Nat.succ_le_succ (scanListSep_length_le scan (n + 1) rest2)
        · simp

/-- C6: the symmetric pair primitives follow the sscanf count — a
single scanned value is broadcast into both slots, two scanned values
are stored as given, no scannable value is a failure — for the
integer instance and the float instance alike, and the scan never
yields more than two values, so these cases are exhaustive. -/
theorem parse_symmetric_spec :
    (∀ s : String,
      (scanIntsSep 2 s.data).length ≤ 2 ∧
      (∀ v : Int, scanIntsSep 2 s.data = [v] →
        parse_symmetric_integers s = some (v, v)) ∧
      (∀ v w : Int, scanIntsSep 2 s.data = [v, w] →
        parse_symmetric_integers s = some (v, w)) ∧
      (scanIntsSep 2 s.data = [] → parse_symmetric_integers s = none)) ∧
    (∀ s : String,
      (scanFloatsSep 2 s.data).length ≤ 2 ∧
      (∀ v : Rat, scanFloatsSep 2 s.data = [v] →
        parse_symmetric_floats s = some (v, v)) ∧
      (∀ v w : Rat, scanFloatsSep 2 s.data = [v, w] →
        parse_symmetric_floats s = some (v, w)) ∧
      (scanFloatsSep 2 s.data = [] → parse_symmetric_floats s = none)) := by
  constructor
  · intro s
    refine ⟨scanListSep_length_le scanInt32 2 s.data, ?_, ?_, ?_⟩
    · intro v h
      unfold parse_symmetric_integers
      rw [h]
    · intro v w h
      unfold parse_symmetric_integers
      rw [h]
    · intro h
      unfold parse_symmetric_integers
      rw [h]
  · intro s
    refine ⟨scanListSep_length_le scanFloat 2 s.data, ?_, ?_, ?_⟩
    · intro v h
      unfold parse_symmetric_floats
      rw [h]
    · intro v w h
      unfold parse_symmetric_floats
      rw [h]
    · intro h
      unfold parse_symmetric_floats
      rw [h]

/-- Witness for C6: a lone integer is broadcast, a float pair is
stored as given. -/
theorem parse_symmetric_spec_witness :
    parse_symmetric_integers "100" = some (100, 100) ∧
    parse_symmetric_floats "1.5,2" = some (3 / 2, 2) :=
  ⟨(parse_symmetric_spec.1 "100").2.1 100 (by decide),
   (parse_symmetric_spec.2 "1.5,2").2.2.1 (3 / 2) 2 (by
     simp [scanFloatsSep, scanListSep, scanFloat, scanDigitsCount, scanExponent, skipWs,
       isSpaceChar, isDigitChar, scanNat, scanDigits]
     norm_num)⟩

/-- One parse_wipe call never pushes the count beyond the capacity it
is checked against. -/
theorem parse_wipe_count_le (cap : Nat) (optname str : String) (w : Wipes)
    (h : w.count ≤ cap) : (parse_wipe cap optname str w).2.1.count ≤ cap := by
  unfold parse_wipe
  by_cases hc : w.count ≥ cap
  · rw [if_pos hc]; exact h
  · rw [if_neg hc]
    cases parse_rectangle str with
    | none => exact h
    | some r => show w.count + 1 ≤ cap; omega

/-- C3: a failing parse_wipe call leaves the wipe list unmutated and
emits the documented stderr diagnostic — the capacity message naming
the limit and the rejected text when the list is already full (before
any parsing), the parse message naming the option and the text when
the rectangle is invalid — and consequently any sequence of calls
starting within capacity keeps the count within capacity. -/
theorem parse_wipe_spec :
    (∀ (cap : Nat) (optname str : String) (w : Wipes), cap ≤ w.count →
      parse_wipe cap optname str w =
        (false, w, some (optname ++ ": maximum number of wipes (" ++ printNat cap ++
          ") exceeded, ignoring " ++ squote str))) ∧
    (∀ (cap : Nat) (optname str : String) (w : Wipes), w.count < cap →
      parse_rectangle str = none →
      parse_wipe cap optname str w =
        (false, w, some (optname ++ ": invalid wipe definition, ignoring " ++
          squote str))) ∧
    (∀ (cap : Nat) (calls : List (String × String)) (w : Wipes),
      w.count ≤ cap → (runWipes cap calls w).count ≤ cap) := by
  refine ⟨?_, ?_, ?_⟩
  · intro cap optname str w hfull
    unfold parse_wipe
    rw [if_pos hfull]
  · intro cap optname str w hroom hbad
    unfold parse_wipe
    rw [if_neg (by omega : ¬ w.count ≥ cap), hbad]
  · intro cap calls
    induction calls with
    | nil => intro w h; exact h
    | cons c cs ih =>
      intro w h
      have hstep : runWipes cap (c :: cs) w =
          runWipes cap cs (parse_wipe cap c.1 c.2 w).2.1 := rfl
      rw [hstep]
      exact ih _ (parse_wipe_count_le cap c.1 c.2 w h)

/-- Witness for C3: a full list of capacity 3 rejects with the
capacity message, a bad rectangle rejects with the parse message, and
a two-call sequence from count 2 stays within capacity 3. -/
theorem parse_wipe_spec_witness :
    parse_wipe 3 "wipe" "1,1,2,2" ⟨3, []⟩ =
      (false, ⟨3, []⟩, some ("wipe" ++ ": maximum number of wipes (" ++ printNat 3 ++
        ") exceeded, ignoring " ++ squote "1,1,2,2")) ∧
    parse_wipe 3 "wipe" "bad" ⟨0, []⟩ =
      (false, ⟨0, []⟩, some ("wipe" ++ ": invalid wipe definition, ignoring " ++
        squote "bad")) ∧
    (runWipes 3 [("wipe", "1,1,2,2"), ("wipe", "1,1,2,2")] ⟨2, []⟩).count ≤ 3 :=
  ⟨parse_wipe_spec.1 3 "wipe" "1,1,2,2" ⟨3, []⟩ (by decide),
   parse_wipe_spec.2.1 3 "wipe" "bad" ⟨0, []⟩ (by decide) (by decide),
   parse_wipe_spec.2.2 3 [("wipe", "1,1,2,2"), ("wipe", "1,1,2,2")] ⟨2, []⟩ (by decide)⟩

/-- C4 is false as stated: the printers decorate the value with
brackets and a trailing space, which the parsers reject, so
formatting-then-reparsing fails already for the perfectly valid size
pair (100, 100). -/
theorem print_parse_roundtrip_fails :
    print_rectangle_size ⟨100, 100⟩ = "[100,100] " ∧
    parse_rectangle_size (print_rectangle_size ⟨100, 100⟩) = none := by
  constructor
  · decide
  · decide

/-- C4 amended: each printer emits "[core] " where core is the plain
comma-separated rendering of the value, and re-parsing that core (the
printed text with the bracket decoration stripped) with the
corresponding parser yields exactly the original value, for all valid
rectangle/size/delta/border values; a size or delta entered as a
single scalar parses as the symmetric pair (a, a). -/
theorem print_parse_roundtrip_core :
    (∀ r : Rectangle, int32Range r.vertex0.x → int32Range r.vertex0.y →
      int32Range r.vertex1.x → int32Range r.vertex1.y → 0 < count_pixels r →
      print_rectangle r = "[" ++ rectangleCore r ++ "] " ∧
      parse_rectangle (rectangleCore r) = some r) ∧
    (∀ s : RectangleSize, int32Range s.width → int32Range s.height →
      0 ≤ s.width → 0 ≤ s.height →
      print_rectangle_size s = "[" ++ sizeCore s ++ "] " ∧
      parse_rectangle_size (sizeCore s) = some s) ∧
    (∀ d : Delta, int32Range d.horizontal → int32Range d.vertical →
      print_delta d = "[" ++ deltaCore d ++ "] " ∧
      parse_delta (deltaCore d) = some d) ∧
    (∀ b : Border, int32Range b.left → int32Range b.top →
      int32Range b.right → int32Range b.bottom →
      0 ≤ b.left → 0 ≤ b.top → 0 ≤ b.right → 0 ≤ b.bottom →
      print_border b = "[" ++ borderCore b ++ "] " ∧
      parse_border (borderCore b) = some b) ∧
    (∀ a : Int, int32Range a → 0 ≤ a →
      parse_rectangle_size (printInt a) = some ⟨a, a⟩) ∧
    (∀ a : Int, int32Range a →
      parse_delta (printInt a) = some ⟨a, a⟩) := by
  refine ⟨fun r h0 h1 h2 h3 harea => ⟨?_, ?_⟩,
    fun s hw hh hw0 hh0 => ⟨?_, ?_⟩,
    fun d hh hv => ⟨?_, ?_⟩,
    fun b hl ht hr hb hl0 ht0 hr0 hb0 => ⟨?_, ?_⟩,
    fun a ha ha0 => ?_, fun a ha => ?_⟩
  · apply String.ext
    simp [print_rectangle, rectangleCore, printInt, String.data_append]
  · have hdata : (rectangleCore r).data =
        printIntChars r.vertex0.x ++ ',' :: (printIntChars r.vertex0.y ++
          ',' :: (printIntChars r.vertex1.x ++ ',' :: printIntChars r.vertex1.y)) := rfl
    unfold parse_rectangle
    rw [hdata, scanIntsSep_quad _ _ _ _ h0 h1 h2 h3]
    show (if count_pixels ⟨⟨r.vertex0.x, r.vertex0.y⟩, ⟨r.vertex1.x, r.vertex1.y⟩⟩ > 0
      then some (⟨⟨r.vertex0.x, r.vertex0.y⟩, ⟨r.vertex1.x, r.vertex1.y⟩⟩ : Rectangle)
      else none) = some r
    rw [if_pos harea]
  · apply String.ext
    simp [print_rectangle_size, sizeCore, printInt, String.data_append]
  · have hdata : (sizeCore s).data =
        printIntChars s.width ++ ',' :: printIntChars s.height := rfl
    have hsym : parse_symmetric_integers (sizeCore s) = some (s.width, s.height) := by
      unfold parse_symmetric_integers
      rw [hdata, scanIntsSep_pair _ _ hw hh]
    unfold parse_rectangle_size
    rw [hsym]
    show (if s.width ≥ 0 ∧ s.height ≥ 0
      then some (⟨s.width, s.height⟩ : RectangleSize) else none) = some s
    rw [if_pos ⟨hw0, hh0⟩]
  · apply String.ext
    simp [print_delta, deltaCore, printInt, String.data_append]
  · have hdata : (deltaCore d).data =
        printIntChars d.horizontal ++ ',' :: printIntChars d.vertical := rfl
    have hsym : parse_symmetric_integers (deltaCore d) =
        some (d.horizontal, d.vertical) := by
      unfold parse_symmetric_integers
      rw [hdata, scanIntsSep_pair _ _ hh hv]
    unfold parse_delta
    rw [hsym]
    rfl
  · apply String.ext
    simp [print_border, borderCore, printInt, String.data_append]
  · have hdata : (borderCore b).data =
        printIntChars b.left ++ ',' :: (printIntChars b.top ++
          ',' :: (printIntChars b.right ++ ',' :: printIntChars b.bottom)) := rfl
    unfold parse_border
    rw [hdata, scanIntsSep_quad _ _ _ _ hl ht hr hb]
    show (if b.left ≥ 0 ∧ b.top ≥ 0 ∧ b.right ≥ 0 ∧ b.bottom ≥ 0
      then some (⟨b.left, b.top, b.right, b.bottom⟩ : Border) else none) = some b
    rw [if_pos ⟨hl0, ht0, hr0, hb0⟩]
  · have hdata : (printInt a).data = printIntChars a := rfl
    have hsym : parse_symmetric_integers (printInt a) = some (a, a) := by
      unfold parse_symmetric_integers
      rw [hdata, scanIntsSep_single a ha]
    unfold parse_rectangle_size
    rw [hsym]
    show (if a ≥ 0 ∧ a ≥ 0 then some (⟨a, a⟩ : RectangleSize) else none) =
      some ⟨a, a⟩
    rw [if_pos ⟨ha0, ha0⟩]
  · have hdata : (printInt a).data = printIntChars a := rfl
    have hsym : parse_symmetric_integers (printInt a) = some (a, a) := by
      unfold parse_symmetric_integers
      rw [hdata, scanIntsSep_single a ha]
    unfold parse_delta
    rw [hsym]
    rfl

/-- Witness for the amended C4 at the size (100, 100), the delta
(-3, 7), and the broadcast scalar -3. -/
theorem print_parse_roundtrip_core_witness :
    (print_rectangle_size ⟨100, 100⟩ = "[" ++ sizeCore ⟨100, 100⟩ ++ "] " ∧
     parse_rectangle_size (sizeCore ⟨100, 100⟩) = some ⟨100, 100⟩) ∧
    (print_delta ⟨-3, 7⟩ = "[" ++ deltaCore ⟨-3, 7⟩ ++ "] " ∧
     parse_delta (deltaCore ⟨-3, 7⟩) = some ⟨-3, 7⟩) ∧
    parse_delta (printInt (-3)) = some ⟨-3, -3⟩ :=
  ⟨print_parse_roundtrip_core.2.1 ⟨100, 100⟩ (by decide) (by decide)
      (by decide) (by decide),
   print_parse_roundtrip_core.2.2.1 ⟨-3, 7⟩ (by decide) (by decide),
   print_parse_roundtrip_core.2.2.2.2.2 (-3) (by decide)⟩

end Unpaper
